import Mathlib

/-!
Shallow embedding of the flight-delay prediction service
(`src/main.py`, the documented/strict variant, and `src/app.py`, the
minimal variant) and proofs about its behaviour.

Cell values of the single-row feature table are modelled exactly:
integers as `Int`, strings as `String`, and floating-point request
fields as `ℚ` — the encoding/alignment logic never performs arithmetic
on them, it only moves values between columns and inserts literal `0`,
so rationals are a faithful carrier for the float literals involved.
The model artifact (deserialized by joblib) is opaque to the service:
it is modelled by the two capabilities the code uses, an ordered
feature-name list `feature_names_in_` and a fallible predict function.
Python exceptions are modelled with `Except`; an exception the handler
does not catch surfaces as the `uncaught` result.
-/

namespace FlightApi

/-- A Python exception as the service observes it: its message, plus
whether it is a `ValueError` (the strict variant's `predict` branches on
that to choose between 422 and 500). -/
structure PyErr where
  isValueError : Bool
  msg : String
deriving DecidableEq, Repr

/-- A cell value of the one-row feature table. -/
inductive Value where
  | int (i : Int)
  | str (s : String)
  | rat (q : ℚ)
deriving DecidableEq, Repr

/-- String rendering of a cell value, used by `get_dummies` to build
dummy-column names (`col_value`). -/
def valueStr : Value → String
  | .int i => toString i
  | .str s => s
  | .rat q => toString q

/-- `class FlightData(BaseModel)` of `main.py`/`app.py`: month, day,
hour, sched_dep_time, sched_arr_time are ints, origin/dest/carrier are
strings, distance is a float. -/
structure FlightData where
  month : Int
  day : Int
  hour : Int
  sched_dep_time : Int
  sched_arr_time : Int
  origin : String
  dest : String
  carrier : String
  distance : ℚ
deriving DecidableEq, Repr

/-- `data.dict()`: the field-name → value mapping of a record, in field
declaration order (Python dicts preserve insertion order). -/
def dataDict (d : FlightData) : List (String × Value) :=
  [("month", .int d.month), ("day", .int d.day), ("hour", .int d.hour),
   ("sched_dep_time", .int d.sched_dep_time),
   ("sched_arr_time", .int d.sched_arr_time),
   ("origin", .str d.origin), ("dest", .str d.dest),
   ("carrier", .str d.carrier), ("distance", .rat d.distance)]

/-- The canonical documentation example record (`json_schema_extra` of
`FlightData` in `main.py`). -/
def exampleRecord : FlightData :=
  ⟨7, 23, 16, 1630, 1930, "JFK", "LAX", "DL", (3983 : ℚ)⟩

/-- `pd.get_dummies(input_data, columns=cols, drop_first=True)` on the
one-row table `pd.DataFrame([data.dict()])`: each listed categorical
column is removed and replaced by one indicator column per distinct
category except the first; with a single row each listed column holds
exactly one category, which `drop_first` drops, so no indicator column
is ever produced.  The non-listed columns keep their order; indicator
columns would be appended after them. -/
def getDummiesRow (row : List (String × Value)) (cols : List String) :
    List (String × Value) :=
  let kept := row.filter (fun p => !(cols.contains p.1))
  let dummies := (cols.map (fun c =>
    let cats := ((row.filter (fun p => p.1 == c)).map Prod.snd).dedup
    match cats with
    | [] => []
    | _ :: rest => rest.map (fun v => (c ++ "_" ++ valueStr v, Value.int 1)))).flatten
  kept ++ dummies

/-- The categorical columns the service one-hot encodes
(`columns=["carrier", "origin", "dest"]` in both variants). -/
def catCols : List String := ["carrier", "origin", "dest"]

/-- Lines 172–173 of `main.py` (46–47 of `app.py`): build the one-row
table from `data.dict()` and apply drop-first one-hot encoding. -/
def encodeInput (d : FlightData) : List (String × Value) :=
  getDummiesRow (dataDict d) catCols

/-- Value of column `n` in a one-row table, when present. -/
def colLookup (row : List (String × Value)) (n : String) : Option Value :=
  (row.find? (fun p => p.1 == n)).map Prod.snd

/-- `missing_cols = set(names) - set(columns)` followed by
`for col in missing_cols: input_data[col] = 0`: every expected column
not present is appended with integer value 0.  The Python set's
iteration order is immaterial because the subsequent selection
(`selectCols`) picks columns by name. -/
def fillMissing (row : List (String × Value)) (names : List String) :
    List (String × Value) :=
  row ++ (names.dedup.filter
    (fun n => !((row.map Prod.fst).contains n))).map (fun n => (n, Value.int 0))

/-- `input_data = input_data[names]`: reorder/select the columns by the
given name list; a name with no matching column raises a `KeyError`
(which is not a `ValueError`). -/
def selectCols (row : List (String × Value)) :
    List String → Except PyErr (List (String × Value))
  | [] => Except.ok []
  | n :: ns =>
    match colLookup row n with
    | some v =>
      match selectCols row ns with
      | .ok rest => .ok ((n, v) :: rest)
      | .error e => .error e
    | none => Except.error ⟨false, "KeyError: " ++ n⟩

/-- Lines 172–179 of `main.py` (46–53 of `app.py`): encode the record,
zero-fill the expected columns that are missing, and select the columns
in the model's expected order.  This is the single-row feature table
handed to `model.predict`. -/
def alignFeatures (names : List String) (d : FlightData) :
    Except PyErr (List (String × Value)) :=
  selectCols (fillMissing (encodeInput d) names) names

/-- The loaded model, reduced to the two capabilities the service uses:
the ordered expected-column list `feature_names_in_` and a predict
operation that may raise.  `predictFn` returns the full output sequence
of `model.predict` so that the code's `[0]` indexing can be modelled. -/
structure Model where
  feature_names_in_ : List String
  predictFn : List (String × Value) → Except PyErr (List ℚ)

/-- `model.predict(input_data)[0]`: invoke the model and take the first
output; an empty output sequence raises an `IndexError` (not a
`ValueError`). -/
def modelInvoke (m : Model) (row : List (String × Value)) : Except PyErr ℚ :=
  match m.predictFn row with
  | .error e => .error e
  | .ok [] => .error ⟨false, "index 0 is out of bounds"⟩
  | .ok (p :: _) => .ok p

/-- One history entry: `{"input": data.dict(), "prediction": prediction}`. -/
structure HistEntry where
  input : List (String × Value)
  prediction : ℚ
deriving DecidableEq, Repr

/-- The process-wide globals `model = None` and `history = []`. -/
structure ServerState where
  model : Option Model
  history : List HistEntry

/-- A JSON response body, one constructor per body shape the handlers
produce: a status message, an error message, a prediction, a history
listing, or an `HTTPException` detail. -/
inductive Body where
  | statusMsg (s : String)
  | errorMsg (e : String)
  | prediction (q : ℚ)
  | historyList (h : List HistEntry)
  | detail (d : String)
deriving DecidableEq, Repr

/-- The outcome of one handler call: an HTTP response (status code plus
JSON body), or an exception that escaped the handler uncaught. -/
inductive HResult where
  | resp (status : Nat) (body : Body)
  | uncaught (e : PyErr)
deriving DecidableEq, Repr

/-- Status code of a handler outcome; `none` when the handler let an
exception escape instead of producing a response. -/
def statusOf : HResult → Option Nat
  | .resp c _ => some c
  | .uncaught _ => none

/-- Whether a handler outcome is an escaped exception. -/
def isUncaught : HResult → Bool
  | .uncaught _ => true
  | _ => false

/-- Whether a handler outcome is a 200 response carrying a prediction. -/
def isPredictionResp : HResult → Bool
  | .resp c (.prediction _) => c == 200
  | _ => false

/-- The joblib deserialization facility is external (the repository
only calls `joblib.load`); an uploaded payload is modelled by its
deserialization outcome: a model, or the exception raised. -/
abbrev UploadPayload := Except PyErr Model

/-- `joblib.load(file.file)` applied to a payload. -/
def joblibLoad (p : UploadPayload) : Except PyErr Model := p

/-- `load_model` of `main.py` (lines 104–109): on success store the
model and answer 200, on any exception answer an `HTTPException` with
status 400 and the exception text as detail. -/
def mainLoadModel (s : ServerState) (file : UploadPayload) :
    HResult × ServerState :=
  match joblibLoad file with
  | .ok m => (.resp 200 (.statusMsg "Modelo carregado com sucesso"),
              { s with model := some m })
  | .error e => (.resp 400 (.detail e.msg), s)

/-- `load_model` of `app.py` (lines 29–35): on success store the model
and answer 200, on any exception answer 200 with an error body. -/
def appLoadModel (s : ServerState) (file : UploadPayload) :
    HResult × ServerState :=
  match joblibLoad file with
  | .ok m => (.resp 200 (.statusMsg "Modelo carregado com sucesso"),
              { s with model := some m })
  | .error e => (.resp 200 (.errorMsg e.msg), s)

/-- The strict variant's exception-to-response mapping in `predict`
(lines 189–192 of `main.py`): `ValueError` becomes 422 with the message
as detail, any other exception becomes 500. -/
def mainPredictCatch (e : PyErr) : HResult :=
  if e.isValueError then .resp 422 (.detail e.msg)
  else .resp 500 (.detail ("Erro interno do servidor: " ++ e.msg))

/-- `predict` of `main.py` (lines 152–192): reject with 400 when no
model is loaded; otherwise align the features, invoke the model, append
the `(input, prediction)` pair to the history and answer 200; every
exception inside the `try` block is converted by `mainPredictCatch`. -/
def mainPredict (s : ServerState) (data : FlightData) :
    HResult × ServerState :=
  match s.model with
  | none => (.resp 400 (.detail "Modelo não carregado"), s)
  | some m =>
    match alignFeatures m.feature_names_in_ data with
    | .error e => (mainPredictCatch e, s)
    | .ok row =>
      match modelInvoke m row with
      | .error e => (mainPredictCatch e, s)
      | .ok p =>
        (.resp 200 (.prediction p),
         { s with history := s.history ++ [⟨dataDict data, p⟩] })

/-- `predict` of `app.py` (lines 40–62): answer 200 with an error body
when no model is loaded; otherwise align, invoke, append and answer
200 — with no `try/except`, so an exception raised while aligning or
invoking escapes the handler. -/
def appPredict (s : ServerState) (data : FlightData) :
    HResult × ServerState :=
  match s.model with
  | none => (.resp 200 (.errorMsg "Modelo não carregado"), s)
  | some m =>
    match alignFeatures m.feature_names_in_ data with
    | .error e => (.uncaught e, s)
    | .ok row =>
      match modelInvoke m row with
      | .error e => (.uncaught e, s)
      | .ok p =>
        (.resp 200 (.prediction p),
         { s with history := s.history ++ [⟨dataDict data, p⟩] })

/-- `get_history` of `main.py` (lines 233–244): 404 when the history is
empty, otherwise 200 with the full history. -/
def mainGetHistory (s : ServerState) : HResult × ServerState :=
  if s.history.isEmpty then
    (.resp 404 (.detail "Histórico não encontrado"), s)
  else
    (.resp 200 (.historyList s.history), s)

/-- `get_history` of `app.py` (lines 67–68): always 200 with the
history, even when empty. -/
def appGetHistory (s : ServerState) : HResult × ServerState :=
  (.resp 200 (.historyList s.history), s)

/-- `health` (identical in both variants): a fixed 200 status body. -/
def healthCheck (s : ServerState) : HResult × ServerState :=
  (.resp 200 (.statusMsg "API está funcionando corretamente"), s)

/-- The history entry recorded for record `d` and prediction `q`. -/
def mkEntry (d : FlightData) (q : ℚ) : HistEntry :=
  ⟨dataDict d, q⟩

/-- Run a sequence of strict-variant predict calls, threading the
server state and collecting the responses in order. -/
def runPredicts (s : ServerState) (ds : List FlightData) :
    List HResult × ServerState :=
  match ds with
  | [] => ([], s)
  | d :: rest =>
    let r := mainPredict s d
    let rr := runPredicts r.2 rest
    (r.1 :: rr.1, rr.2)

/-! ### Column-lookup lemmas for the feature-alignment pipeline -/

lemma colLookup_append (a b : List (String × Value)) (n : String) :
    colLookup (a ++ b) n = (colLookup a n).or (colLookup b n) := by
  simp only [colLookup, List.find?_append]
  cases List.find? (fun p => p.1 == n) a <;> simp [Option.or]

lemma colLookup_eq_none_iff (row : List (String × Value)) (n : String) :
    colLookup row n = none ↔ n ∉ row.map Prod.fst := by
  simp only [colLookup, Option.map_eq_none', List.find?_eq_none, beq_iff_eq,
    List.mem_map]
  constructor
  · rintro h ⟨p, hp, rfl⟩
    exact h p hp rfl
  · intro h p hp hpn
    exact h ⟨p, hp, hpn⟩

lemma colLookup_mapFun (l : List String) (f : String → Value) (n : String)
    (h : n ∈ l) :
    colLookup (l.map fun m => (m, f m)) n = some (f n) := by
  induction l with
  | nil => cases h
  | cons a t ih =>
    by_cases heq : a = n
    · subst heq
      simp [colLookup, List.find?_cons]
    · have hbeq : (a == n) = false := by simp [heq]
      have hmem : n ∈ t := by
        rcases List.mem_cons.mp h with h1 | h1
        · exact absurd h1.symm heq
        · exact h1
      simpa [colLookup, List.find?_cons, hbeq] using ih hmem

lemma colLookup_fillMissing (row : List (String × Value))
    (names : List String) (n : String) (h : n ∈ names) :
    colLookup (fillMissing row names) n =
      some ((colLookup row n).getD (Value.int 0)) := by
  rw [fillMissing, colLookup_append]
  cases hrow : colLookup row n with
  | some v => simp [Option.or]
  | none =>
    have hn : n ∉ row.map Prod.fst := (colLookup_eq_none_iff _ _).mp hrow
    have hmem : n ∈ names.dedup.filter
        (fun m => !((row.map Prod.fst).contains m)) := by
      apply List.mem_filter.mpr
      refine ⟨List.mem_dedup.mpr h, ?_⟩
      simp only [Bool.not_eq_eq_eq_not, Bool.not_true, List.contains,
        Bool.not_eq_true']
      exact (Bool.not_eq_true _).mp (fun hc => hn (List.elem_iff.mp hc))
    rw [Option.none_or]
    exact colLookup_mapFun
      (names.dedup.filter fun m => !((row.map Prod.fst).contains m))
      (fun _ => Value.int 0) n hmem

lemma selectCols_total (t : List (String × Value)) (ns : List String)
    (h : ∀ n ∈ ns, (colLookup t n).isSome) :
    selectCols t ns =
      Except.ok (ns.map fun n => (n, (colLookup t n).getD (Value.int 0))) := by
  induction ns with
  | nil => simp [selectCols]
  | cons a l ih =>
    have ha := h a (List.mem_cons_self a l)
    cases hv : colLookup t a with
    | none => rw [hv] at ha; simp at ha
    | some v =>
      have hrest := ih (fun n hn => h n (List.mem_cons_of_mem a hn))
      simp [selectCols, hv, hrest]

/-- The exact value the aligned row carries for a given expected column
name: the encoded table's value when the column exists there, integer
zero otherwise. -/
def alignedVal (d : FlightData) (n : String) : Value :=
  (colLookup (encodeInput d) n).getD (Value.int 0)

lemma alignFeatures_ok (names : List String) (d : FlightData) :
    alignFeatures names d =
      Except.ok (names.map fun n => (n, alignedVal d n)) := by
  unfold alignFeatures
  rw [selectCols_total]
  · apply congrArg
    apply List.map_congr_left
    intro n hn
    rw [colLookup_fillMissing _ _ _ hn]
    rfl
  · intro n hn
    rw [colLookup_fillMissing _ _ _ hn]
    rfl

/-! ### Concrete fixtures used by witnesses and counterexamples -/

/-- A stub model used to exercise the handlers on concrete inputs: it
expects one column and always predicts 5. -/
def constModel : Model := ⟨["month"], fun _ => Except.ok [(5 : ℚ)]⟩

/-- A stub model whose predict capability raises, exercising the
exception paths of the two predict handlers. -/
def raisingModel : Model := ⟨["month"], fun _ => Except.error ⟨false, "boom"⟩⟩

/-! ### Claim theorems -/

/-- C1: for every loaded model feature-name list and every flight
record, the single-row table `alignFeatures` hands to the model's
predict capability has exactly the columns of `feature_names_in_`, in
that order; every expected name missing from the drop-first one-hot
encoded request table is filled with integer zero, every expected name
present keeps its encoded value, and every encoded column outside the
expected list is dropped. -/
theorem predict_feature_alignment (names : List String) (d : FlightData) :
    ∃ row, alignFeatures names d = Except.ok row ∧
      row.map Prod.fst = names ∧
      (∀ p ∈ row, p.1 ∈ names) ∧
      (∀ n ∈ names, n ∉ (encodeInput d).map Prod.fst →
        colLookup row n = some (Value.int 0)) ∧
      (∀ n ∈ names, n ∈ (encodeInput d).map Prod.fst →
        colLookup row n = colLookup (encodeInput d) n) := by
  refine ⟨_, alignFeatures_ok names d, ?_, ?_, ?_, ?_⟩
  · simp only [List.map_map]
    exact List.map_id names
  · intro p hp
    have hmem : p.1 ∈ (names.map fun n => (n, alignedVal d n)).map Prod.fst :=
      List.mem_map_of_mem Prod.fst hp
    simpa using hmem
  · intro n hn hnot
    rw [colLookup_mapFun names (alignedVal d) n hn]
    have henc : colLookup (encodeInput d) n = none :=
      (colLookup_eq_none_iff _ _).mpr hnot
    simp [alignedVal, henc]
  · intro n hn hin
    rw [colLookup_mapFun names (alignedVal d) n hn]
    cases henc : colLookup (encodeInput d) n with
    | none => exact absurd hin ((colLookup_eq_none_iff _ _).mp henc)
    | some v => simp [alignedVal, henc]

/-- Witness for C1: a concrete expected-column list against the
documentation example record; the dummy column `carrier_AA` (absent
from the encoded request) is zero-filled while `month` keeps its
encoded value. -/
theorem predict_feature_alignment_witness :
    ∃ row,
      alignFeatures ["month", "carrier_AA"] exampleRecord = Except.ok row ∧
      row.map Prod.fst = ["month", "carrier_AA"] ∧
      colLookup row "carrier_AA" = some (Value.int 0) ∧
      colLookup row "month" = colLookup (encodeInput exampleRecord) "month" := by
  obtain ⟨row, h1, h2, _h3, h4, h5⟩ :=
    predict_feature_alignment ["month", "carrier_AA"] exampleRecord
  exact ⟨row, h1, h2,
    h4 "carrier_AA" (by decide) (by decide),
    h5 "month" (by decide) (by decide)⟩

/-- C3: a load call whose payload fails to deserialize leaves the model
slot (and the whole server state) unchanged, in both variants. -/
theorem load_failure_preserves_holder (s : ServerState) (e : PyErr) :
    (mainLoadModel s (Except.error e)).2 = s ∧
    (appLoadModel s (Except.error e)).2 = s :=
  ⟨rfl, rfl⟩

/-- C4: in the strict variant, a predict request with no loaded model
answers 400 with detail "Modelo não carregado", never carries a
prediction body, and leaves the history untouched. -/
theorem strict_predict_not_loaded (s : ServerState) (d : FlightData)
    (h : s.model = none) :
    mainPredict s d =
      (HResult.resp 400 (Body.detail "Modelo não carregado"), s) ∧
    (∀ c q, (mainPredict s d).1 ≠ HResult.resp c (Body.prediction q)) ∧
    (mainPredict s d).2.history = s.history := by
  have hm : mainPredict s d =
      (HResult.resp 400 (Body.detail "Modelo não carregado"), s) := by
    simp [mainPredict, h]
  refine ⟨hm, ?_, by rw [hm]⟩
  intro c q
  rw [hm]
  simp

/-- Witness for C4 at the fresh server state and the documentation
example record. -/
theorem strict_predict_not_loaded_witness :
    mainPredict ⟨none, []⟩ exampleRecord =
      (HResult.resp 400 (Body.detail "Modelo não carregado"), ⟨none, []⟩) :=
  (strict_predict_not_loaded ⟨none, []⟩ exampleRecord rfl).1

/-- C5 counterexample: the minimal variant answers a predict request
with no loaded model with HTTP status 200 (a plain dict return), not
the strict-style 400 the claim asserts. -/
theorem minimal_not_loaded_status_counterexample :
    (appPredict ⟨none, []⟩ exampleRecord).1 =
      HResult.resp 200 (Body.errorMsg "Modelo não carregado") ∧
    statusOf (appPredict ⟨none, []⟩ exampleRecord).1 ≠ some 400 :=
  ⟨rfl, by decide⟩

/-- C5 amended: the minimal variant answers predict-with-no-model with
status 200 and an error body, and answers a failing model load with
status 200 and the raw error message in an error body. -/
theorem minimal_error_signaling (s : ServerState) (d : FlightData)
    (e : PyErr) (h : s.model = none) :
    appPredict s d =
      (HResult.resp 200 (Body.errorMsg "Modelo não carregado"), s) ∧
    appLoadModel s (Except.error e) =
      (HResult.resp 200 (Body.errorMsg e.msg), s) := by
  exact ⟨by simp [appPredict, h], rfl⟩

/-- Witness for the amended C5 at concrete inputs. -/
theorem minimal_error_signaling_witness :
    appPredict ⟨none, []⟩ exampleRecord =
      (HResult.resp 200 (Body.errorMsg "Modelo não carregado"), ⟨none, []⟩) ∧
    appLoadModel ⟨none, []⟩ (Except.error ⟨false, "bad file"⟩) =
      (HResult.resp 200 (Body.errorMsg "bad file"), ⟨none, []⟩) :=
  minimal_error_signaling ⟨none, []⟩ exampleRecord ⟨false, "bad file"⟩ rfl

/-- C10: the minimal variant's get-history on an empty history answers
200 with an empty history list, not an error and not a status body. -/
theorem minimal_history_empty_ok (s : ServerState) (h : s.history = []) :
    appGetHistory s = (HResult.resp 200 (Body.historyList []), s) := by
  simp [appGetHistory, h]

/-- Witness for C10 at the fresh server state. -/
theorem minimal_history_empty_ok_witness :
    appGetHistory ⟨none, []⟩ =
      (HResult.resp 200 (Body.historyList []), ⟨none, []⟩) :=
  minimal_history_empty_ok ⟨none, []⟩ rfl

/-! ### Success-path characterisation of the predict handlers -/

lemma mainPredict_success (s : ServerState) (d : FlightData) (q : ℚ)
    (h : (mainPredict s d).1 = HResult.resp 200 (Body.prediction q)) :
    (mainPredict s d).2 = ⟨s.model, s.history ++ [mkEntry d q]⟩ := by
  cases hm : s.model with
  | none => simp [mainPredict, hm] at h
  | some m =>
    cases hi : modelInvoke m
        (m.feature_names_in_.map fun n => (n, alignedVal d n)) with
    | error e =>
      by_cases hb : e.isValueError <;>
        simp [mainPredict, hm, alignFeatures_ok, hi, mainPredictCatch, hb] at h
    | ok p =>
      simp only [mainPredict, hm, alignFeatures_ok, hi] at h ⊢
      have hpq : p = q := by
        simpa using h
      subst hpq
      simp [mkEntry, hm]

lemma appPredict_success (s : ServerState) (d : FlightData) (q : ℚ)
    (h : (appPredict s d).1 = HResult.resp 200 (Body.prediction q)) :
    (appPredict s d).2 = ⟨s.model, s.history ++ [mkEntry d q]⟩ := by
  cases hm : s.model with
  | none => simp [appPredict, hm] at h
  | some m =>
    cases hi : modelInvoke m
        (m.feature_names_in_.map fun n => (n, alignedVal d n)) with
    | error e =>
      simp [appPredict, hm, alignFeatures_ok, hi] at h
    | ok p =>
      simp only [appPredict, hm, alignFeatures_ok, hi] at h ⊢
      have hpq : p = q := by
        simpa using h
      subst hpq
      simp [mkEntry, hm]

lemma isPredictionResp_iff (r : HResult) :
    isPredictionResp r = true ↔
      ∃ q, r = HResult.resp 200 (Body.prediction q) := by
  cases r with
  | uncaught e => simp [isPredictionResp]
  | resp c b =>
    cases b <;> simp [isPredictionResp]

lemma runPredicts_all_ok (ds : List FlightData) (s : ServerState)
    (hok : ((runPredicts s ds).1.all isPredictionResp) = true) :
    ∃ qs : List ℚ, qs.length = ds.length ∧
      (runPredicts s ds).1 =
        qs.map (fun q => HResult.resp 200 (Body.prediction q)) ∧
      (runPredicts s ds).2 =
        ⟨s.model, s.history ++ (ds.zip qs).map (fun p => mkEntry p.1 p.2)⟩ := by
  induction ds generalizing s with
  | nil => exact ⟨[], rfl, rfl, by simp [runPredicts]⟩
  | cons d rest ih =>
    have hsplit : isPredictionResp (mainPredict s d).1 = true ∧
        ((runPredicts (mainPredict s d).2 rest).1.all isPredictionResp) = true := by
      simpa [runPredicts, List.all_cons, Bool.and_eq_true] using hok
    obtain ⟨hhead, htail⟩ := hsplit
    obtain ⟨q, hq⟩ := (isPredictionResp_iff _).mp hhead
    have hstep := mainPredict_success s d q hq
    obtain ⟨qs, hlen, hresps, hstate⟩ := ih (mainPredict s d).2 htail
    refine ⟨q :: qs, by simp [hlen], ?_, ?_⟩
    · simp [runPredicts, hq, hresps]
    · show (runPredicts (mainPredict s d).2 rest).2 = _
      rw [hstate, hstep]
      simp [mkEntry, List.zip_cons_cons]

/-- C2: starting from an empty history, after a nonempty sequence of
predict calls that all complete the model invocation, the strict
variant's get-history answers 200 with exactly one entry per call, in
submission order, pairing each submitted record's field mapping with
the prediction value returned by the corresponding predict response. -/
theorem history_accumulates (s : ServerState) (ds : List FlightData)
    (hS : s.history = []) (hne : ds ≠ [])
    (hok : ((runPredicts s ds).1.all isPredictionResp) = true) :
    ∃ qs : List ℚ, qs.length = ds.length ∧
      (runPredicts s ds).1 =
        qs.map (fun q => HResult.resp 200 (Body.prediction q)) ∧
      (runPredicts s ds).2.history =
        (ds.zip qs).map (fun p => mkEntry p.1 p.2) ∧
      (mainGetHistory (runPredicts s ds).2).1 =
        HResult.resp 200
          (Body.historyList ((ds.zip qs).map fun p => mkEntry p.1 p.2)) := by
  obtain ⟨qs, hlen, hresps, hstate⟩ := runPredicts_all_ok ds s hok
  have hhist : (runPredicts s ds).2.history =
      (ds.zip qs).map (fun p => mkEntry p.1 p.2) := by
    rw [hstate]
    simp [hS]
  refine ⟨qs, hlen, hresps, hhist, ?_⟩
  have hne2 : (runPredicts s ds).2.history ≠ [] := by
    rw [hhist]
    cases ds with
    | nil => exact absurd rfl hne
    | cons d t =>
      cases qs with
      | nil => simp at hlen
      | cons q qt => simp [List.zip_cons_cons]
  rw [mainGetHistory, if_neg (by simpa [List.isEmpty_iff] using hne2)]
  rw [hhist]

/-- Witness for C2: one successful predict call against a stub model
from the fresh state, then get-history. -/
theorem history_accumulates_witness :
    ∃ qs : List ℚ, qs.length = [exampleRecord].length ∧
      (runPredicts ⟨some constModel, []⟩ [exampleRecord]).1 =
        qs.map (fun q => HResult.resp 200 (Body.prediction q)) ∧
      (runPredicts ⟨some constModel, []⟩ [exampleRecord]).2.history =
        ([exampleRecord].zip qs).map (fun p => mkEntry p.1 p.2) ∧
      (mainGetHistory (runPredicts ⟨some constModel, []⟩ [exampleRecord]).2).1 =
        HResult.resp 200
          (Body.historyList
            (([exampleRecord].zip qs).map fun p => mkEntry p.1 p.2)) :=
  history_accumulates ⟨some constModel, []⟩ [exampleRecord] rfl
    (List.cons_ne_nil _ _) rfl

/-- C6: whenever a predict call of either variant completes with a
prediction, the appended history entry carries the submitted record's
field mapping verbatim (`data.dict()`) paired with that prediction. -/
theorem history_entry_verbatim (s : ServerState) (d : FlightData) (q : ℚ) :
    ((mainPredict s d).1 = HResult.resp 200 (Body.prediction q) →
      (mainPredict s d).2.history = s.history ++ [⟨dataDict d, q⟩]) ∧
    ((appPredict s d).1 = HResult.resp 200 (Body.prediction q) →
      (appPredict s d).2.history = s.history ++ [⟨dataDict d, q⟩]) := by
  constructor
  · intro h
    rw [mainPredict_success s d q h]
    simp [mkEntry]
  · intro h
    rw [appPredict_success s d q h]
    simp [mkEntry]

/-- Witness for C6: a concrete successful predict in each variant. -/
theorem history_entry_verbatim_witness :
    (mainPredict ⟨some constModel, []⟩ exampleRecord).2.history =
      [] ++ [⟨dataDict exampleRecord, 5⟩] ∧
    (appPredict ⟨some constModel, []⟩ exampleRecord).2.history =
      [] ++ [⟨dataDict exampleRecord, 5⟩] :=
  ⟨(history_entry_verbatim ⟨some constModel, []⟩ exampleRecord 5).1 rfl,
   (history_entry_verbatim ⟨some constModel, []⟩ exampleRecord 5).2 rfl⟩

/-- C7 counterexample: in the minimal variant, an exception raised by
the model invocation inside predict escapes the handler uncaught
instead of being converted to a JSON response. -/
theorem minimal_predict_uncaught_counterexample :
    (appPredict ⟨some raisingModel, []⟩ exampleRecord).1 =
      HResult.uncaught ⟨false, "boom"⟩ :=
  rfl

/-- C7 amended: every failure is caught at the handler boundary and
converted to a response in all strict-variant handlers and in the
minimal variant's load, get-history and health handlers; the minimal
variant's predict handler is the exception, its alignment/invocation
failures escape uncaught. -/
theorem handlers_catch_failures (s : ServerState) (p : UploadPayload)
    (d : FlightData) :
    isUncaught (mainLoadModel s p).1 = false ∧
    isUncaught (mainPredict s d).1 = false ∧
    isUncaught (mainGetHistory s).1 = false ∧
    isUncaught (healthCheck s).1 = false ∧
    isUncaught (appLoadModel s p).1 = false ∧
    isUncaught (appGetHistory s).1 = false := by
  refine ⟨?_, ?_, ?_, rfl, ?_, rfl⟩
  · cases p <;> rfl
  · cases hm : s.model with
    | none => simp [mainPredict, hm, isUncaught]
    | some m =>
      cases hi : modelInvoke m
          (m.feature_names_in_.map fun n => (n, alignedVal d n)) with
      | error e =>
        by_cases hb : e.isValueError <;>
          simp [mainPredict, hm, alignFeatures_ok, hi, mainPredictCatch, hb,
            isUncaught]
      | ok q => simp [mainPredict, hm, alignFeatures_ok, hi, isUncaught]
  · rw [mainGetHistory]
    split <;> rfl
  · cases p <;> rfl

/-- C8: the strict variant's get-history answers 404 with detail
"Histórico não encontrado" exactly when the history is empty, and 200
with the full history otherwise; in particular a fresh service never
receives a non-empty history listing. -/
theorem strict_history_response (s : ServerState) :
    (s.history = [] →
      mainGetHistory s =
        (HResult.resp 404 (Body.detail "Histórico não encontrado"), s)) ∧
    (s.history ≠ [] →
      mainGetHistory s =
        (HResult.resp 200 (Body.historyList s.history), s)) := by
  constructor
  · intro h
    rw [mainGetHistory, if_pos (by simp [h])]
  · intro h
    rw [mainGetHistory, if_neg (by simpa [List.isEmpty_iff] using h)]

/-- Witness for C8: the empty and a one-entry history. -/
theorem strict_history_response_witness :
    mainGetHistory ⟨none, []⟩ =
      (HResult.resp 404 (Body.detail "Histórico não encontrado"),
        ⟨none, []⟩) ∧
    mainGetHistory ⟨none, [mkEntry exampleRecord 5]⟩ =
      (HResult.resp 200 (Body.historyList [mkEntry exampleRecord 5]),
        ⟨none, [mkEntry exampleRecord 5]⟩) :=
  ⟨(strict_history_response ⟨none, []⟩).1 rfl,
   (strict_history_response ⟨none, [mkEntry exampleRecord 5]⟩).2
     (List.cons_ne_nil _ _)⟩

/-- C9: get-history (both variants) and health leave the server state
unchanged, and repeating them without intervening writes returns the
identical result. -/
theorem reads_are_pure (s : ServerState) :
    (mainGetHistory s).2 = s ∧
    (appGetHistory s).2 = s ∧
    (healthCheck s).2 = s ∧
    mainGetHistory ((mainGetHistory s).2) = mainGetHistory s ∧
    appGetHistory ((appGetHistory s).2) = appGetHistory s ∧
    healthCheck ((healthCheck s).2) = healthCheck s := by
  have h1 : (mainGetHistory s).2 = s := by
    rw [mainGetHistory]
    split <;> rfl
  exact ⟨h1, rfl, rfl, by rw [h1], rfl, rfl⟩

end FlightApi
